import Mathlib

/-!
Shallow embedding of the violetear web client's orchestration state machine
(`src/main.rs`).  The Yew component's `update` method is modelled as a pure
function from a model and a message to an updated model together with the
list of side effects it requests (HTTP requests, storage writes, messages
sent to itself, file reads, timer spawns).  A Rust panic (an `unwrap` of a
`None`) is modelled by the result `none`.
-/

namespace Violetear

/-- The fixed local-storage key (`KEY` in `main.rs`). -/
def KEY : String := "violetear.web-client.database"

structure Config where
  api_url : String

/-- The persisted session state (`State` in `main.rs`). -/
structure State where
  token : Option String

inductive Scene where
  | Loading
  | LoginRegister
  | FetchConfigError
  | LoggedIn

inductive LoginRegisterFormDataField where
  | Username
  | Password

structure LoginRegisterFormData where
  username : String
  password : String

structure LoginResponse where
  token : Option String

structure RegisterResponse where
  token : Option String

structure Profile where
  id : Int
  machine_name : String
  human_name : String
  module : String
  config : Option String

structure ProfilesResponse where
  profiles : List Profile

/-- A task row; timestamps are opaque integers (claims never inspect them). -/
structure Task where
  id : Int
  report_id : Int
  profile_id : Int
  created_when : Int
  completed_when : Option Int
  status : String
  message : Option String

structure TasksResponse where
  tasks : List Task

structure CreateResponse where
  report_id : Int

/-- A browser file handle; `content` is what the async read will produce. -/
structure RustFile where
  name : String
  content : List Nat

/-- The payload delivered by the reader service on read completion. -/
structure FileData where
  name : String
  content : List Nat

/-- Yew's `ChangeData` as used by this component. -/
inductive ChangeData where
  | Value (value : String)
  | Files (files : List RustFile)

/-- The component's message type (`Msg` in `main.rs`).  Error payloads are
collapsed to `Unit`: every handler matches `Err(_)` and discards them. -/
inductive Msg where
  | FetchConfig
  | FetchConfigDone (result : Except Unit Config)
  | LoginRegisterFormDataChange (field : LoginRegisterFormDataField) (value : String)
  | Login
  | LoginDone (result : Except Unit LoginResponse)
  | Register
  | RegisterDone (result : Except Unit RegisterResponse)
  | Logout
  | LogoutDone (result : Except Unit Unit)
  | FetchProfiles
  | FetchProfilesDone (result : Except Unit ProfilesResponse)
  | ToggleProfile (machine_name : String)
  | LoadFile (data : ChangeData)
  | CreateReport (file_data : FileData)
  | CreateReportDone (result : Except Unit CreateResponse)
  | FetchTasks (report_id : Int)
  | FetchTasksDone (result : Except Unit TasksResponse)
  | NoOp

inductive RequestBody where
  | nothing
  | json (username : String) (password : String)
  | bytes (content : List Nat)

/-- The side effects a handler can request. -/
inductive Effect where
  | store (key : String) (token : Option String)
  | request (method : String) (uri : String) (auth : Option String) (body : RequestBody)
  | sendSelf (msg : Msg)
  | readFile (file : RustFile)
  | spawnTimer (period_ms : Nat) (report_id : Int)
  | log (text : String)

/-- The mutable component state (the fields of `Model` in `main.rs` that the
orchestration logic reads or writes; service handles and in-flight fetch
handles are represented by their observable effects, except the interval
timer `it`, whose presence drives the polling claims). -/
structure Model where
  config : Option Config
  state : State
  scene : Scene
  loginregister_error : Option String
  loginregister_form : LoginRegisterFormData
  logout_error : Option String
  fetched_profiles : Option ProfilesResponse
  fetch_profiles_error : Option String
  enabled_profiles : List String
  is_file_uploading : Bool
  is_register_disabled : Bool
  is_register_loading : Bool
  is_login_loading : Bool
  is_login_disabled : Bool
  is_logout_loading : Bool
  is_logout_disabled : Bool
  current_pending_tasks : Option (List Task)
  it : Option Int

/-- `HashSet::contains`. -/
def hashSetContains (s : List String) (x : String) : Bool :=
  s.contains x

/-- `HashSet::insert` (the set is modelled as its insertion-ordered list of
distinct elements; `HashSet` iteration order is unspecified in Rust, and no
claim depends on the order, only on membership). -/
def hashSetInsert (s : List String) (x : String) : List String :=
  if hashSetContains s x then s else s ++ [x]

/-- `HashSet::remove`. -/
def hashSetRemove (s : List String) (x : String) : List String :=
  s.filter (fun y => !(y == x))

/-- The `Msg::ToggleProfile` mutation: remove the name if present, insert it
otherwise (lines 444-452 of `main.rs`). -/
def toggleProfile (enabled : List String) (machine_name : String) : List String :=
  if hashSetContains enabled machine_name then hashSetRemove enabled machine_name
  else hashSetInsert enabled machine_name

/-- The `Msg::FetchProfilesDone(Ok)` loop: insert every profile's
`machine_name` into the (cleared) set, in list order. -/
def insertAllMachineNames (enabled : List String) (profiles : List Profile) : List String :=
  profiles.foldl (fun s p => hashSetInsert s p.machine_name) enabled

/-- The comma join used to build the `profiles` query parameter in
`Msg::CreateReport`. -/
def joinProfiles (enabled : List String) : String :=
  String.intercalate "," enabled

/-- The pending-task filter of `Msg::FetchTasksDone(Ok)`. -/
def pendingTasks (tasks : List Task) : List Task :=
  tasks.filter (fun x => x.status == "new" || x.status == "pending")

/-- The `update` method of the component, message by message.  The result is
`none` exactly when the Rust code would panic (an `unwrap` of an absent
value); otherwise it is the updated model and the ordered effects. -/
def update (m : Model) (msg : Msg) : Option (Model × List Effect) :=
  match msg with
  | .FetchConfig =>
      some (m, [.request "GET" "/config.json" none .nothing])
  | .FetchConfigDone (.ok response) =>
      let m1 := { m with config := some response }
      if m1.state.token.isSome then
        some ({ m1 with scene := .Loading },
          [.log "Configuration was fetched.", .sendSelf .FetchProfiles])
      else
        some ({ m1 with scene := .LoginRegister }, [.log "Configuration was fetched."])
  | .FetchConfigDone (.error _) =>
      some ({ m with scene := .FetchConfigError }, [])
  | .Login =>
      let m1 := { m with loginregister_error := none, is_register_disabled := true,
                         is_login_loading := true, is_login_disabled := true }
      match m1.config with
      | some config =>
          some (m1, [.request "POST" (config.api_url ++ "/v1/auth/login") none
            (.json m1.loginregister_form.username m1.loginregister_form.password)])
      | none => some (m1, [])
  | .LoginDone (.ok login_response) =>
      match login_response.token with
      | none => none
      | some tok =>
          let m1 := { m with state := { token := some tok } }
          let m2 := { m1 with is_register_disabled := false, is_login_loading := false,
                              is_login_disabled := false }
          some (m2, [.store KEY m1.state.token, .sendSelf .FetchProfiles])
  | .LoginDone (.error _) =>
      some ({ m with is_register_disabled := false, is_login_loading := false,
                     is_login_disabled := false,
                     loginregister_error := some "Could not login" }, [])
  | .Register =>
      let m1 := { m with loginregister_error := none, is_register_disabled := true,
                         is_register_loading := true, is_login_disabled := true }
      match m1.config with
      | some config =>
          some (m1, [.request "POST" (config.api_url ++ "/v1/auth/register") none
            (.json m1.loginregister_form.username m1.loginregister_form.password)])
      | none => some (m1, [])
  | .RegisterDone (.ok register_response) =>
      match register_response.token with
      | none => none
      | some tok =>
          let m1 := { m with is_register_disabled := false, is_register_loading := false,
                             is_login_disabled := false, state := { token := some tok } }
          some (m1, [.store KEY m1.state.token, .sendSelf .FetchProfiles])
  | .RegisterDone (.error _) =>
      some ({ m with is_register_disabled := false, is_register_loading := false,
                     is_login_disabled := false,
                     loginregister_error := some "Could not register" }, [])
  | .LoginRegisterFormDataChange field value =>
      match field with
      | .Username =>
          some ({ m with loginregister_form := { m.loginregister_form with username := value } }, [])
      | .Password =>
          some ({ m with loginregister_form := { m.loginregister_form with password := value } }, [])
  | .Logout =>
      match m.config with
      | some config =>
          let m1 := { m with logout_error := none, is_logout_disabled := true,
                             is_logout_loading := true }
          match m1.state.token with
          | none => none
          | some tok =>
              some (m1, [.request "POST" (config.api_url ++ "/v1/auth/logout") (some tok) .nothing])
      | none => some (m, [])
  | .LogoutDone (.ok _) =>
      let m1 := { m with is_logout_disabled := false, is_logout_loading := false,
                         state := { token := none } }
      some ({ m1 with loginregister_error := none, scene := .LoginRegister },
        [.store KEY m1.state.token])
  | .LogoutDone (.error _) =>
      some ({ m with is_logout_disabled := false, is_logout_loading := false,
                     logout_error := some "Could not logout" }, [])
  | .FetchProfiles =>
      match m.config with
      | some config =>
          match m.state.token with
          | none => none
          | some tok =>
              some (m, [.request "GET" (config.api_url ++ "/v1/profiles") (some tok) .nothing])
      | none => some (m, [])
  | .FetchProfilesDone (.error _) =>
      some ({ m with fetch_profiles_error := some "Could not fetch profiles" }, [])
  | .FetchProfilesDone (.ok profiles_response) =>
      some ({ m with scene := .LoggedIn,
                     enabled_profiles := insertAllMachineNames [] profiles_response.profiles,
                     fetched_profiles := some profiles_response }, [])
  | .ToggleProfile machine_name =>
      some ({ m with enabled_profiles := toggleProfile m.enabled_profiles machine_name }, [])
  | .LoadFile (.Files file_list) =>
      match file_list with
      | [file] => some ({ m with is_file_uploading := true }, [.readFile file])
      | _ => some (m, [])
  | .LoadFile _ => some (m, [])
  | .CreateReport file_data =>
      match m.config with
      | some config =>
          match m.state.token with
          | none => none
          | some tok =>
              some (m, [.request "POST"
                (config.api_url ++ "/v1/reports/create?profiles=" ++
                  joinProfiles m.enabled_profiles)
                (some tok) (.bytes file_data.content)])
      | none => some (m, [])
  | .CreateReportDone (.ok create_response) =>
      some ({ m with is_file_uploading := false, it := some create_response.report_id },
        [.sendSelf (.FetchTasks create_response.report_id),
         .spawnTimer 1000 create_response.report_id])
  | .CreateReportDone (.error _) =>
      some ({ m with is_file_uploading := false }, [])
  | .FetchTasks report_id =>
      match m.config with
      | some config =>
          match m.state.token with
          | none => none
          | some tok =>
              some (m, [.request "GET"
                (config.api_url ++ "/v1/reports/" ++ toString report_id ++ "/tasks")
                (some tok) .nothing])
      | none => some (m, [])
  | .FetchTasksDone (.ok fetch_response) =>
      let m1 := if (pendingTasks fetch_response.tasks).length == 0 then { m with it := none } else m
      some ({ m1 with current_pending_tasks := some fetch_response.tasks }, [])
  | .FetchTasksDone (.error _) =>
      some (m, [])
  | .NoOp => some (m, [])

/-- The six task statuses of the data model. -/
def validStatuses : List String := ["new", "pending", "clean", "detected", "timeout", "error"]

/-- The terminal task statuses. -/
def terminalStatuses : List String := ["clean", "detected", "timeout", "error"]

/-- Machine names of the most recently fetched profile list (empty before any
fetch). -/
def knownMachineNames (m : Model) : List String :=
  match m.fetched_profiles with
  | none => []
  | some resp => resp.profiles.map Profile.machine_name

/-- The invariant of claim C7: every enabled profile name is the
`machine_name` of a currently known profile. -/
def EnabledInv (m : Model) : Prop :=
  ∀ x ∈ m.enabled_profiles, x ∈ knownMachineNames m

instance (m : Model) : Decidable (EnabledInv m) :=
  List.decidableBAll (fun x => x ∈ knownMachineNames m) m.enabled_profiles

/-- One `ToggleProfile` step of `update` (it never panics, so the default
branch of `getD` is unreachable). -/
def stepToggle (m : Model) (name : String) : Model :=
  ((update m (Msg.ToggleProfile name)).map Prod.fst).getD m

/-- A sequence of `ToggleProfile` messages, run through `update`. -/
def runToggles (m : Model) (names : List String) : Model :=
  names.foldl stepToggle m

/-- The component state right after `create`: no config, no token, scene
`Loading`, everything else empty or false. -/
def model0 : Model where
  config := none
  state := { token := none }
  scene := .Loading
  loginregister_error := none
  loginregister_form := { username := "", password := "" }
  logout_error := none
  fetched_profiles := none
  fetch_profiles_error := none
  enabled_profiles := []
  is_file_uploading := false
  is_register_disabled := false
  is_register_loading := false
  is_login_loading := false
  is_login_disabled := false
  is_logout_loading := false
  is_logout_disabled := false
  current_pending_tasks := none
  it := none

/-- A profile named `p1`, used by concrete scenarios. -/
def profileP1 : Profile where
  id := 1
  machine_name := "p1"
  human_name := "Profile One"
  module := "m1"
  config := none

/-- A logged-in model with one known, enabled profile `p1`. -/
def m6 : Model :=
  { model0 with
      config := some { api_url := "http://a" }
      state := { token := some "t" }
      scene := .LoggedIn
      fetched_profiles := some { profiles := [profileP1] }
      enabled_profiles := ["p1"] }

/-- A file handle whose read yields one byte. -/
def file6 : RustFile where
  name := "f.bin"
  content := [7]

/-- The reader-service payload for `file6`. -/
def fd6 : FileData where
  name := "f.bin"
  content := [7]

/-- A completed (clean) task, used to exercise the poll-stop condition. -/
def taskClean : Task where
  id := 10
  report_id := 42
  profile_id := 1
  created_when := 0
  completed_when := some 1
  status := "clean"
  message := none

/-- A still-pending task. -/
def taskPending : Task where
  id := 11
  report_id := 42
  profile_id := 1
  created_when := 0
  completed_when := none
  status := "pending"
  message := none

/-- A task-fetch response containing exactly one clean task. -/
def respClean : TasksResponse where
  tasks := [taskClean]

/-- `m6` right after a one-file selection was submitted (read in flight). -/
def m6a : Model := { m6 with is_file_uploading := true }

/-- `m6a` after the user toggles `p2` on while the read is in flight. -/
def m6b : Model := { m6a with enabled_profiles := ["p1", "p2"] }

/-- A model whose only known profile is `p1`, with `p1` enabled. -/
def m7 : Model :=
  { model0 with
      fetched_profiles := some { profiles := [profileP1] }
      enabled_profiles := ["p1"] }

/-- `m7` after toggling the unknown name `zzz`. -/
def m7x : Model := { m7 with enabled_profiles := ["p1", "zzz"] }

/-- `m7` after toggling the known name `p1` off. -/
def m7r : Model := { m7 with enabled_profiles := [] }

/-- A logged-in model with an upload in flight. -/
def m8 : Model := { m6 with is_file_uploading := true }

/-- `m8` after a failed report creation. -/
def m8x : Model := { m8 with is_file_uploading := false }

theorem contains_iff_mem (l : List String) (x : String) :
    hashSetContains l x = true ↔ x ∈ l := by
  simp [hashSetContains]

theorem mem_hashSetInsert (l : List String) (n x : String) :
    x ∈ hashSetInsert l n ↔ x ∈ l ∨ x = n := by
  by_cases h : hashSetContains l n = true
  · have hn : n ∈ l := (contains_iff_mem l n).mp h
    simp only [hashSetInsert, if_pos h]
    constructor
    · exact Or.inl
    · rintro (hx | rfl)
      · exact hx
      · exact hn
  · simp only [hashSetInsert, if_neg h, List.mem_append, List.mem_singleton]

theorem mem_hashSetRemove (l : List String) (n x : String) :
    x ∈ hashSetRemove l n ↔ x ∈ l ∧ x ≠ n := by
  simp [hashSetRemove, List.mem_filter]

theorem mem_toggleProfile (l : List String) (n x : String) :
    x ∈ toggleProfile l n ↔ (if x = n then n ∉ l else x ∈ l) := by
  by_cases hn : hashSetContains l n = true
  · have hmem : n ∈ l := (contains_iff_mem l n).mp hn
    simp only [toggleProfile, if_pos hn, mem_hashSetRemove]
    by_cases hx : x = n
    · subst hx; simp [hmem]
    · simp [hx]
  · have hmem : n ∉ l := fun h => hn ((contains_iff_mem l n).mpr h)
    simp only [toggleProfile, if_neg hn, mem_hashSetInsert]
    by_cases hx : x = n
    · subst hx; simp [hmem]
    · simp [hx, hmem]

theorem mem_insertAllMachineNames (profiles : List Profile) (acc : List String) (x : String) :
    x ∈ insertAllMachineNames acc profiles ↔
      x ∈ acc ∨ x ∈ profiles.map Profile.machine_name := by
  induction profiles generalizing acc with
  | nil => simp [insertAllMachineNames]
  | cons p rest ih =>
      simp only [insertAllMachineNames, List.foldl_cons, List.map_cons, List.mem_cons]
      rw [show (List.foldl (fun s q => hashSetInsert s q.machine_name) (hashSetInsert acc p.machine_name) rest) = insertAllMachineNames (hashSetInsert acc p.machine_name) rest from rfl]
      rw [ih, mem_hashSetInsert]
      tauto

/-- Claim C2: on `Msg::LoginDone(Ok)` carrying a token, the handler sets the
session token to the response token, persists the session under the fixed
storage key, clears the login loading flag and the login and register
disabled flags, and sends itself a `FetchProfiles` message. -/
theorem loginDone_ok_success (m : Model) (tok : String) :
    update m (Msg.LoginDone (Except.ok { token := some tok })) =
      some ({ m with state := { token := some tok },
                     is_register_disabled := false,
                     is_login_loading := false,
                     is_login_disabled := false },
        [Effect.store KEY (some tok), Effect.sendSelf Msg.FetchProfiles]) := rfl

/-- Claim C3: on `Msg::LogoutDone(Err)`, only the logout flags and the
logout error change; the token is untouched and no effect (in particular no
storage write) is emitted. -/
theorem logoutDone_err_frame (m : Model) :
    update m (Msg.LogoutDone (Except.error ())) =
      some ({ m with is_logout_disabled := false,
                     is_logout_loading := false,
                     logout_error := some "Could not logout" }, []) := rfl

/-- Claim C9: the `LoginDone(Ok)`/`RegisterDone(Ok)` handlers complete
without a fault exactly when the response's optional token field is present;
an absent token is an unhandled fault (`none`, the model of a panic). -/
theorem loginRegisterDone_ok_fault_iff_token_absent :
    (∀ (m : Model) (r : LoginResponse),
        (update m (Msg.LoginDone (Except.ok r))).isSome ↔ r.token.isSome) ∧
    (∀ (m : Model) (r : RegisterResponse),
        (update m (Msg.RegisterDone (Except.ok r))).isSome ↔ r.token.isSome) := by
  constructor
  · intro m r
    cases r with
    | mk token => cases token <;> simp [update]
  · intro m r
    cases r with
    | mk token => cases token <;> simp [update]

/-- Claim C10: processing `Msg::Login` or `Msg::Register` with no loaded
config sets the corresponding disabled/loading flags but emits no effect at
all — in particular no network request, so no completion message can ever be
generated for it. -/
theorem login_register_without_config (m : Model) (h : m.config = none) :
    update m Msg.Login =
      some ({ m with loginregister_error := none, is_register_disabled := true,
                     is_login_loading := true, is_login_disabled := true }, []) ∧
    update m Msg.Register =
      some ({ m with loginregister_error := none, is_register_disabled := true,
                     is_register_loading := true, is_login_disabled := true }, []) := by
  constructor <;> simp [update, h]

/-- Witness for C10 at the post-`create` model, whose config is `none`. -/
theorem login_register_without_config_witness :
    update model0 Msg.Login =
      some ({ model0 with loginregister_error := none, is_register_disabled := true,
                          is_login_loading := true, is_login_disabled := true }, []) ∧
    update model0 Msg.Register =
      some ({ model0 with loginregister_error := none, is_register_disabled := true,
                          is_register_loading := true, is_login_disabled := true }, []) :=
  login_register_without_config model0 rfl

/-- Claim C4: on `Msg::FetchProfilesDone(Ok)`, the scene becomes `LoggedIn`,
the stored profile list is replaced wholesale by the response, no effect is
emitted, and the enabled-profile set becomes exactly the set of
`machine_name` values of the response (prior toggles are discarded). -/
theorem fetchProfilesDone_ok_resets (m : Model) (resp : ProfilesResponse) :
    ∃ m1, update m (Msg.FetchProfilesDone (Except.ok resp)) = some (m1, []) ∧
      m1.scene = Scene.LoggedIn ∧
      m1.fetched_profiles = some resp ∧
      ∀ x, x ∈ m1.enabled_profiles ↔ x ∈ resp.profiles.map Profile.machine_name := by
  refine ⟨{ m with scene := .LoggedIn,
                   enabled_profiles := insertAllMachineNames [] resp.profiles,
                   fetched_profiles := some resp }, rfl, rfl, rfl, ?_⟩
  intro x
  rw [show ({ m with scene := Scene.LoggedIn,
                     enabled_profiles := insertAllMachineNames [] resp.profiles,
                     fetched_profiles := some resp } : Model).enabled_profiles =
        insertAllMachineNames [] resp.profiles from rfl]
  rw [mem_insertAllMachineNames]
  simp

/-- One toggle flips membership of the toggled name and leaves every other
membership unchanged. -/
theorem mem_stepToggle (m : Model) (n x : String) :
    x ∈ (stepToggle m n).enabled_profiles ↔
      (if x = n then n ∉ m.enabled_profiles else x ∈ m.enabled_profiles) := by
  rw [show (stepToggle m n).enabled_profiles = toggleProfile m.enabled_profiles n from rfl]
  exact mem_toggleProfile m.enabled_profiles n x

/-- Claim C5: for every starting model and sequence of `ToggleProfile`
messages run through `update`, final membership of the enabled set is the
starting membership XOR-ed with the names toggled an odd number of times;
in particular a double toggle restores the original membership. -/
theorem toggle_sequence_parity :
    (∀ (m : Model) (names : List String) (x : String),
        x ∈ (runToggles m names).enabled_profiles ↔
          Xor' (x ∈ m.enabled_profiles) (names.count x % 2 = 1)) ∧
    (∀ (m : Model) (n x : String),
        x ∈ (runToggles m [n, n]).enabled_profiles ↔ x ∈ m.enabled_profiles) := by
  have main : ∀ (names : List String) (m : Model) (x : String),
      x ∈ (runToggles m names).enabled_profiles ↔
        Xor' (x ∈ m.enabled_profiles) (names.count x % 2 = 1) := by
    intro names
    induction names with
    | nil =>
        intro m x
        simp [runToggles, Xor']
    | cons n rest ih =>
        intro m x
        rw [show runToggles m (n :: rest) = runToggles (stepToggle m n) rest from rfl]
        rw [ih (stepToggle m n) x, List.count_cons]
        by_cases hx : x = n
        · subst hx
          have hflip : (x ∈ (stepToggle m x).enabled_profiles) ↔ ¬(x ∈ m.enabled_profiles) := by
            rw [mem_stepToggle]; simp
          have hpar : ((rest.count x + if (x == x) = true then 1 else 0) % 2 = 1) ↔
              ¬(rest.count x % 2 = 1) := by
            simp only [beq_self_eq_true, if_true]
            omega
          rw [hflip, hpar]
          unfold Xor'
          tauto
        · have hkeep : (x ∈ (stepToggle m n).enabled_profiles) ↔ x ∈ m.enabled_profiles := by
            rw [mem_stepToggle]; simp [hx]
          have hcnt : (rest.count x + if (n == x) = true then 1 else 0) = rest.count x := by
            have hnx : ¬n = x := fun h => hx (Eq.symm h)
            simp [hnx]
          rw [hkeep, hcnt]
  refine ⟨fun m names x => main names m x, fun m n x => ?_⟩
  rw [main [n, n] m x]
  by_cases hx : x = n
  · subst hx
    simp [List.count_cons, Xor']
  · simp [List.count_cons, hx, Xor']

/-- With every status drawn from the six-value taxonomy, the pending filter
is empty exactly when every task has a terminal status. -/
theorem pendingTasks_eq_nil_iff (tasks : List Task)
    (hvalid : ∀ t ∈ tasks, t.status ∈ validStatuses) :
    pendingTasks tasks = [] ↔ ∀ t ∈ tasks, t.status ∈ terminalStatuses := by
  rw [pendingTasks, List.filter_eq_nil_iff]
  constructor
  · intro h t ht
    have hv := hvalid t ht
    have hn := h t ht
    simp only [validStatuses, List.mem_cons, List.not_mem_nil, or_false] at hv
    simp only [Bool.or_eq_true, beq_iff_eq, not_or] at hn
    simp only [terminalStatuses, List.mem_cons, List.not_mem_nil, or_false]
    rcases hv with h1 | h1 | h1 | h1 | h1 | h1
    · exact absurd h1 hn.1
    · exact absurd h1 hn.2
    · exact Or.inl h1
    · exact Or.inr (Or.inl h1)
    · exact Or.inr (Or.inr (Or.inl h1))
    · exact Or.inr (Or.inr (Or.inr h1))
  · intro h t ht
    have ht2 := h t ht
    simp only [terminalStatuses, List.mem_cons, List.not_mem_nil, or_false] at ht2
    simp only [Bool.or_eq_true, beq_iff_eq, not_or]
    rcases ht2 with h1 | h1 | h1 | h1 <;> rw [h1] <;> exact ⟨by decide, by decide⟩

/-- Claim C1: a successful task poll cancels the repeating timer if and only
if every fetched task has a terminal status (with statuses drawn from the
data model's taxonomy); an empty task list cancels it; a failed poll changes
nothing at all — in particular it never cancels the timer. -/
theorem fetchTasksDone_stops_iff_terminal (m : Model) (resp : TasksResponse)
    (hvalid : ∀ t ∈ resp.tasks, t.status ∈ validStatuses) :
    (update m (Msg.FetchTasksDone (Except.ok resp)) =
      some ({ m with it := if ∀ t ∈ resp.tasks, t.status ∈ terminalStatuses then none else m.it,
                     current_pending_tasks := some resp.tasks }, [])) ∧
    (resp.tasks = [] →
      update m (Msg.FetchTasksDone (Except.ok resp)) =
        some ({ m with it := none, current_pending_tasks := some resp.tasks }, [])) ∧
    (update m (Msg.FetchTasksDone (Except.error ())) = some (m, [])) := by
  have key : update m (Msg.FetchTasksDone (Except.ok resp)) =
      some ({ m with it := if ∀ t ∈ resp.tasks, t.status ∈ terminalStatuses then none else m.it,
                     current_pending_tasks := some resp.tasks }, []) := by
    by_cases hall : ∀ t ∈ resp.tasks, t.status ∈ terminalStatuses
    · have hnil : pendingTasks resp.tasks = [] := (pendingTasks_eq_nil_iff resp.tasks hvalid).mpr hall
      rw [if_pos hall]
      simp only [update, hnil]
      rfl
    · have hnil : pendingTasks resp.tasks ≠ [] :=
        fun h => hall ((pendingTasks_eq_nil_iff resp.tasks hvalid).mp h)
      have hlen : ((pendingTasks resp.tasks).length == 0) = false := by
        cases hp : pendingTasks resp.tasks with
        | nil => exact absurd hp hnil
        | cons a l => rfl
      rw [if_neg hall]
      simp only [update, hlen]
      rfl
  refine ⟨key, ?_, rfl⟩
  intro hempty
  rw [key]
  have : (∀ t ∈ resp.tasks, t.status ∈ terminalStatuses) := by
    rw [hempty]; intro t ht; cases ht
  rw [if_pos this]

/-- Witness for C1: a poll returning a single clean task stops the timer;
the failed-poll conjunct leaves the model untouched. -/
theorem fetchTasksDone_stops_iff_terminal_witness :
    (update m6 (Msg.FetchTasksDone (Except.ok respClean)) =
      some ({ m6 with it := if ∀ t ∈ respClean.tasks, t.status ∈ terminalStatuses then none else m6.it,
                      current_pending_tasks := some respClean.tasks }, [])) ∧
    (respClean.tasks = [] →
      update m6 (Msg.FetchTasksDone (Except.ok respClean)) =
        some ({ m6 with it := none, current_pending_tasks := some respClean.tasks }, [])) ∧
    (update m6 (Msg.FetchTasksDone (Except.error ())) = some (m6, [])) :=
  fetchTasksDone_stops_iff_terminal m6 respClean (by decide)

/-- Counterexample to claim C6: the claim says the report-creation POST's
`profiles` query parameter is snapshotted at submit time.  In the code the
set is read when the asynchronous file read completes: a toggle processed
between `Msg::LoadFile` and `Msg::CreateReport` changes the issued URI, so
the issued URI differs from the one the submit-time snapshot would give. -/
theorem createReport_snapshot_counterexample :
    update m6 (Msg.LoadFile (ChangeData.Files [file6])) = some (m6a, [Effect.readFile file6]) ∧
    update m6a (Msg.ToggleProfile "p2") = some (m6b, []) ∧
    update m6b (Msg.CreateReport fd6) =
      some (m6b, [Effect.request "POST" "http://a/v1/reports/create?profiles=p1,p2"
        (some "t") (RequestBody.bytes [7])]) ∧
    "http://a/v1/reports/create?profiles=p1,p2" ≠
      "http://a" ++ "/v1/reports/create?profiles=" ++ joinProfiles m6.enabled_profiles := by
  refine ⟨rfl, rfl, rfl, ?_⟩
  decide

/-- Claim C6 as amended: the POST issued by `Msg::CreateReport` carries the
comma-joined enabled-profile set as it is when the read-completion message
is handled — not a snapshot taken at submit time. -/
theorem createReport_uses_current_set (m : Model) (c : Config) (tok : String) (fd : FileData)
    (hc : m.config = some c) (ht : m.state.token = some tok) :
    update m (Msg.CreateReport fd) =
      some (m, [Effect.request "POST"
        (c.api_url ++ "/v1/reports/create?profiles=" ++ joinProfiles m.enabled_profiles)
        (some tok) (RequestBody.bytes fd.content)]) := by
  simp only [update, hc, ht]

/-- Witness for the amended C6 at a concrete logged-in model. -/
theorem createReport_uses_current_set_witness :
    update m6 (Msg.CreateReport fd6) =
      some (m6, [Effect.request "POST"
        ("http://a" ++ "/v1/reports/create?profiles=" ++ joinProfiles m6.enabled_profiles)
        (some "t") (RequestBody.bytes fd6.content)]) :=
  createReport_uses_current_set m6 { api_url := "http://a" } "t" fd6 rfl rfl

/-- Counterexample to claim C7: toggling a machine name no fetched profile
carries inserts it into the enabled set, breaking the claimed invariant. -/
theorem enabled_inv_counterexample :
    EnabledInv m7 ∧
    update m7 (Msg.ToggleProfile "zzz") = some (m7x, []) ∧
    ¬ EnabledInv m7x := by
  refine ⟨by decide, rfl, ?_⟩
  decide

/-- Claim C7 as amended: the invariant "every enabled name is the
`machine_name` of a fetched profile" is preserved by every message, provided
any `ToggleProfile` argument is itself a known machine name (the code
inserts arbitrary toggle arguments unconditionally, so the restriction on
the toggle argument is necessary). -/
theorem enabled_inv_preserved (m : Model) (msg : Msg) (m1 : Model) (effs : List Effect)
    (hinv : EnabledInv m)
    (harg : ∀ name, msg = Msg.ToggleProfile name → name ∈ knownMachineNames m)
    (hupd : update m msg = some (m1, effs)) :
    EnabledInv m1 := by
  cases msg with
  | FetchConfig =>
      simp only [update, Option.some.injEq, Prod.mk.injEq] at hupd
      obtain ⟨h1, -⟩ := hupd; subst h1; exact hinv
  | FetchConfigDone result =>
      cases result with
      | ok response =>
          simp only [update] at hupd
          split at hupd <;>
            (simp only [Option.some.injEq, Prod.mk.injEq] at hupd;
             obtain ⟨h1, -⟩ := hupd; subst h1; exact hinv)
      | error e =>
          simp only [update, Option.some.injEq, Prod.mk.injEq] at hupd
          obtain ⟨h1, -⟩ := hupd; subst h1; exact hinv
  | LoginRegisterFormDataChange field value =>
      cases field <;>
        (simp only [update, Option.some.injEq, Prod.mk.injEq] at hupd;
         obtain ⟨h1, -⟩ := hupd; subst h1; exact hinv)
  | Login =>
      simp only [update] at hupd
      split at hupd <;>
        (simp only [Option.some.injEq, Prod.mk.injEq] at hupd;
         obtain ⟨h1, -⟩ := hupd; subst h1; exact hinv)
  | LoginDone result =>
      cases result with
      | ok r =>
          simp only [update] at hupd
          split at hupd
          · exact absurd hupd (by simp)
          · simp only [Option.some.injEq, Prod.mk.injEq] at hupd
            obtain ⟨h1, -⟩ := hupd; subst h1; exact hinv
      | error e =>
          simp only [update, Option.some.injEq, Prod.mk.injEq] at hupd
          obtain ⟨h1, -⟩ := hupd; subst h1; exact hinv
  | Register =>
      simp only [update] at hupd
      split at hupd <;>
        (simp only [Option.some.injEq, Prod.mk.injEq] at hupd;
         obtain ⟨h1, -⟩ := hupd; subst h1; exact hinv)
  | RegisterDone result =>
      cases result with
      | ok r =>
          simp only [update] at hupd
          split at hupd
          · exact absurd hupd (by simp)
          · simp only [Option.some.injEq, Prod.mk.injEq] at hupd
            obtain ⟨h1, -⟩ := hupd; subst h1; exact hinv
      | error e =>
          simp only [update, Option.some.injEq, Prod.mk.injEq] at hupd
          obtain ⟨h1, -⟩ := hupd; subst h1; exact hinv
  | Logout =>
      simp only [update] at hupd
      split at hupd
      · split at hupd
        · exact absurd hupd (by simp)
        · simp only [Option.some.injEq, Prod.mk.injEq] at hupd
          obtain ⟨h1, -⟩ := hupd; subst h1; exact hinv
      · simp only [Option.some.injEq, Prod.mk.injEq] at hupd
        obtain ⟨h1, -⟩ := hupd; subst h1; exact hinv
  | LogoutDone result =>
      cases result with
      | ok u =>
          simp only [update, Option.some.injEq, Prod.mk.injEq] at hupd
          obtain ⟨h1, -⟩ := hupd; subst h1; exact hinv
      | error e =>
          simp only [update, Option.some.injEq, Prod.mk.injEq] at hupd
          obtain ⟨h1, -⟩ := hupd; subst h1; exact hinv
  | FetchProfiles =>
      simp only [update] at hupd
      split at hupd
      · split at hupd
        · exact absurd hupd (by simp)
        · simp only [Option.some.injEq, Prod.mk.injEq] at hupd
          obtain ⟨h1, -⟩ := hupd; subst h1; exact hinv
      · simp only [Option.some.injEq, Prod.mk.injEq] at hupd
        obtain ⟨h1, -⟩ := hupd; subst h1; exact hinv
  | FetchProfilesDone result =>
      cases result with
      | ok resp =>
          simp only [update, Option.some.injEq, Prod.mk.injEq] at hupd
          obtain ⟨h1, -⟩ := hupd; subst h1
          intro x hx
          have hx2 := (mem_insertAllMachineNames resp.profiles [] x).mp hx
          rcases hx2 with h | h
          · cases h
          · exact h
      | error e =>
          simp only [update, Option.some.injEq, Prod.mk.injEq] at hupd
          obtain ⟨h1, -⟩ := hupd; subst h1; exact hinv
  | ToggleProfile name =>
      simp only [update, Option.some.injEq, Prod.mk.injEq] at hupd
      obtain ⟨h1, -⟩ := hupd; subst h1
      intro x hx
      have hx2 := (mem_toggleProfile m.enabled_profiles name x).mp hx
      by_cases hxe : x = name
      · subst hxe
        exact harg x rfl
      · rw [if_neg hxe] at hx2
        exact hinv x hx2
  | LoadFile data =>
      cases data with
      | Value v =>
          simp only [update, Option.some.injEq, Prod.mk.injEq] at hupd
          obtain ⟨h1, -⟩ := hupd; subst h1; exact hinv
      | Files files =>
          simp only [update] at hupd
          split at hupd <;>
            (simp only [Option.some.injEq, Prod.mk.injEq] at hupd;
             obtain ⟨h1, -⟩ := hupd; subst h1; exact hinv)
  | CreateReport fd =>
      simp only [update] at hupd
      split at hupd
      · split at hupd
        · exact absurd hupd (by simp)
        · simp only [Option.some.injEq, Prod.mk.injEq] at hupd
          obtain ⟨h1, -⟩ := hupd; subst h1; exact hinv
      · simp only [Option.some.injEq, Prod.mk.injEq] at hupd
        obtain ⟨h1, -⟩ := hupd; subst h1; exact hinv
  | CreateReportDone result =>
      cases result with
      | ok r =>
          simp only [update, Option.some.injEq, Prod.mk.injEq] at hupd
          obtain ⟨h1, -⟩ := hupd; subst h1; exact hinv
      | error e =>
          simp only [update, Option.some.injEq, Prod.mk.injEq] at hupd
          obtain ⟨h1, -⟩ := hupd; subst h1; exact hinv
  | FetchTasks report_id =>
      simp only [update] at hupd
      split at hupd
      · split at hupd
        · exact absurd hupd (by simp)
        · simp only [Option.some.injEq, Prod.mk.injEq] at hupd
          obtain ⟨h1, -⟩ := hupd; subst h1; exact hinv
      · simp only [Option.some.injEq, Prod.mk.injEq] at hupd
        obtain ⟨h1, -⟩ := hupd; subst h1; exact hinv
  | FetchTasksDone result =>
      cases result with
      | ok resp =>
          simp only [update] at hupd
          split at hupd <;>
            (simp only [Option.some.injEq, Prod.mk.injEq] at hupd;
             obtain ⟨h1, -⟩ := hupd; subst h1; exact hinv)
      | error e =>
          simp only [update, Option.some.injEq, Prod.mk.injEq] at hupd
          obtain ⟨h1, -⟩ := hupd; subst h1; exact hinv
  | NoOp =>
      simp only [update, Option.some.injEq, Prod.mk.injEq] at hupd
      obtain ⟨h1, -⟩ := hupd; subst h1; exact hinv

/-- Witness for the amended C7: toggling the known name `p1` off preserves
the invariant. -/
theorem enabled_inv_preserved_witness : EnabledInv m7r :=
  enabled_inv_preserved m7 (Msg.ToggleProfile "p1") m7r [] (by decide)
    (by intro name h; injection h with h2; subst h2; decide) rfl

/-- Counterexample to claim C8: a failed report creation clears the upload
flag and does nothing else — afterwards every error field is still empty and
no effect was emitted, so no user-visible upload error is produced. -/
theorem createReportDone_err_counterexample :
    update m8 (Msg.CreateReportDone (Except.error ())) = some (m8x, []) ∧
    m8x.loginregister_error = none ∧
    m8x.logout_error = none ∧
    m8x.fetch_profiles_error = none ∧
    m8x.it = m8.it :=
  ⟨rfl, rfl, rfl, rfl, rfl⟩

/-- Claim C8 as amended: on `Msg::CreateReportDone(Err)` the handler clears
the file-uploading flag and changes nothing else — no polling starts, no
partial report state appears, and no error message is recorded (the
component has no upload-error field). -/
theorem createReportDone_err_only_clears_flag (m : Model) :
    update m (Msg.CreateReportDone (Except.error ())) =
      some ({ m with is_file_uploading := false }, []) := rfl

end Violetear
